import Mathlib

/-!
A verification development for the AyushDhara "Health Signal Processing Core":
the Prakriti (constitution) scoring engine, the emergency safety classifier,
the symptom-report anonymizer with its privacy validator, and the regional
symptom aggregator.  Every definition is a shallow embedding of the
corresponding TypeScript function; JavaScript numbers are modelled as exact
rationals, JavaScript strings as Lean strings (with character-level helpers
on `List Char` for the operations `toLowerCase`, `trim` and `includes`),
and dynamic JavaScript objects as ordered association lists of key/value
pairs, so that dynamic-key facts (`hasOwnProperty`, property access on `any`
data) are expressible.
-/

namespace AyushDhara

/-! ### Model of dynamic JavaScript values and objects -/

/-- A JavaScript runtime value, as far as the core functions inspect one:
`null`, `undefined`, strings, (integer) numbers and booleans. -/
inductive JsValue where
  | jsNull
  | jsUndefined
  | str (s : String)
  | num (n : Int)
  | boolean (b : Bool)
deriving DecidableEq, Repr

/-- A dynamic JavaScript object: an insertion-ordered list of own properties. -/
abbrev JsRecord := List (String × JsValue)

/-- Model of `Object.prototype.hasOwnProperty`. -/
def hasOwnProperty (data : JsRecord) (field : String) : Bool :=
  data.any (fun entry => entry.1 == field)

/-- Property access `data[field]` on a dynamic object: `some v` when the key
is an own property, `none` when the access yields `undefined`. -/
def getProperty (data : JsRecord) (field : String) : Option JsValue :=
  (data.find? (fun entry => entry.1 == field)).map Prod.snd

/-- JavaScript truthiness of a value (`null`, `undefined`, `""`, `0` and
`false` are falsy). -/
def jsTruthy : JsValue → Bool
  | .jsNull => false
  | .jsUndefined => false
  | .str s => s ≠ ""
  | .num n => n ≠ 0
  | .boolean b => b

/-- The `.length` property of a value: strings have their length, any other
primitive yields `undefined` (`none`). -/
def jsLength : JsValue → Option Nat
  | .str s => some s.length
  | _ => none

/-- Character-level model of `String.prototype.toLowerCase` (ASCII case
mapping, which covers every keyword in the emergency table). -/
def toLowerList (l : List Char) : List Char :=
  l.map Char.toLower

/-- The whitespace class stripped by `String.prototype.trim`. -/
def isJsWhitespace (c : Char) : Bool :=
  c == ' ' || c == '\t' || c == '\n' || c == '\r' || c == '\x0b' || c == '\x0c' || c == '\u00A0'

/-- Character-level model of `String.prototype.trim`: drop the whitespace
prefix, then the whitespace suffix. -/
def jsTrim (l : List Char) : List Char :=
  ((l.dropWhile isJsWhitespace).reverse.dropWhile isJsWhitespace).reverse

/-- Model of `s.trim()` on a whole string. -/
def jsStringTrim (s : String) : String :=
  String.mk (jsTrim s.data)

/-! ### Emergency Safety Layer (`src/lib/safety.ts`) -/

/-- Result record of the emergency keyword check.  The source interface has
the two optional fields set only on the emergency branch. -/
structure SafetyCheckResult where
  isEmergency : Bool
  emergencyResponse : Option String
  detectedKeywords : Option (List String)
deriving DecidableEq, Repr

/-- The supported language codes of the advisory table (the TypeScript union
type of the `language` parameter). -/
inductive Language where
  | en
  | hi
  | ta
  | te
  | bn
deriving DecidableEq, Repr

/-- Emergency keywords that indicate life-threatening situations, verbatim
from the source, in source order. -/
def EMERGENCY_KEYWORDS : List String :=
  [
    "chest pain",
    "heart attack",
    "cardiac arrest",
    "severe chest pressure",
    "difficulty breathing",
    "can\x27t breathe",
    "cannot breathe",
    "choking",
    "severe breathlessness",
    "gasping for air",
    "stroke",
    "paralysis",
    "sudden weakness",
    "facial drooping",
    "slurred speech",
    "severe headache",
    "loss of consciousness",
    "unconscious",
    "seizure",
    "convulsion",
    "severe bleeding",
    "heavy bleeding",
    "profuse bleeding",
    "severe injury",
    "broken bone",
    "head injury",
    "severe burn",
    "suicide",
    "suicidal",
    "poisoning",
    "overdose",
    "severe allergic reaction",
    "anaphylaxis",
    "severe pain",
    "unbearable pain"
  ]

/-- Emergency response message per supported language, with the literal text
exactly as stored in the checked-in source file. -/
def EMERGENCY_RESPONSES : Language → String
  | .en => "ðŸš¨ EMERGENCY DETECTED ðŸš¨\n\nYour symptoms indicate a potentially life-threatening situation that requires IMMEDIATE medical attention.\n\nâš ï¸ DO NOT WAIT - ACT NOW:\nðŸ“ž Call Emergency Services: 108 (India)\nðŸ¥ Go to the nearest hospital emergency room immediately\nðŸ‘¨â€âš•ï¸ If available, contact your doctor right away\n\nThis is a medical emergency. AI guidance cannot replace emergency medical care.\n\nStay calm and seek help immediately."
  | .hi => "ðŸš¨ à¤†à¤ªà¤¾à¤¤à¤•à¤¾à¤² à¤•à¤¾ à¤ªà¤¤à¤¾ à¤šà¤²à¤¾ ðŸš¨\n\nà¤†à¤ªà¤•à¥‡ à¤²à¤•à¥à¤·à¤£ à¤à¤• à¤¸à¤‚à¤­à¤¾à¤µà¤¿à¤¤ à¤œà¥€à¤µà¤¨-à¤˜à¤¾à¤¤à¤• à¤¸à¥à¤¥à¤¿à¤¤à¤¿ à¤•à¤¾ à¤¸à¤‚à¤•à¥‡à¤¤ à¤¦à¥‡à¤¤à¥‡ à¤¹à¥ˆà¤‚ à¤œà¤¿à¤¸à¤•à¥‡ à¤²à¤¿à¤ à¤¤à¤¤à¥à¤•à¤¾à¤² à¤šà¤¿à¤•à¤¿à¤¤à¥à¤¸à¤¾ à¤§à¥à¤¯à¤¾à¤¨ à¤•à¥€ à¤†à¤µà¤¶à¥à¤¯à¤•à¤¤à¤¾ à¤¹à¥ˆà¥¤\n\nâš ï¸ à¤ªà¥à¤°à¤¤à¥€à¤•à¥à¤·à¤¾ à¤¨ à¤•à¤°à¥‡à¤‚ - à¤…à¤­à¥€ à¤•à¤¾à¤°à¥à¤¯ à¤•à¤°à¥‡à¤‚:\nðŸ“ž à¤†à¤ªà¤¾à¤¤à¤•à¤¾à¤²à¥€à¤¨ à¤¸à¥‡à¤µà¤¾à¤à¤‚ à¤•à¥‰à¤² à¤•à¤°à¥‡à¤‚: 108 (à¤­à¤¾à¤°à¤¤)\nðŸ¥ à¤¤à¥à¤°à¤‚à¤¤ à¤¨à¤¿à¤•à¤Ÿà¤¤à¤® à¤…à¤¸à¥à¤ªà¤¤à¤¾à¤² à¤•à¥‡ à¤†à¤ªà¤¾à¤¤à¤•à¤¾à¤²à¥€à¤¨ à¤•à¤•à¥à¤· à¤®à¥‡à¤‚ à¤œà¤¾à¤à¤‚\nðŸ‘¨â€âš•ï¸ à¤¯à¤¦à¤¿ à¤‰à¤ªà¤²à¤¬à¥à¤§ à¤¹à¥‹, à¤¤à¥‹ à¤¤à¥à¤°à¤‚à¤¤ à¤…à¤ªà¤¨à¥‡ à¤¡à¥‰à¤•à¥à¤Ÿà¤° à¤¸à¥‡ à¤¸à¤‚à¤ªà¤°à¥à¤• à¤•à¤°à¥‡à¤‚\n\nà¤¯à¤¹ à¤à¤• à¤šà¤¿à¤•à¤¿à¤¤à¥à¤¸à¤¾ à¤†à¤ªà¤¾à¤¤à¤•à¤¾à¤² à¤¹à¥ˆà¥¤ AI à¤®à¤¾à¤°à¥à¤—à¤¦à¤°à¥à¤¶à¤¨ à¤†à¤ªà¤¾à¤¤à¤•à¤¾à¤²à¥€à¤¨ à¤šà¤¿à¤•à¤¿à¤¤à¥à¤¸à¤¾ à¤¦à¥‡à¤–à¤­à¤¾à¤² à¤•à¤¾ à¤¸à¥à¤¥à¤¾à¤¨ à¤¨à¤¹à¥€à¤‚ à¤²à¥‡ à¤¸à¤•à¤¤à¤¾à¥¤\n\nà¤¶à¤¾à¤‚à¤¤ à¤°à¤¹à¥‡à¤‚ à¤”à¤° à¤¤à¥à¤°à¤‚à¤¤ à¤¸à¤¹à¤¾à¤¯à¤¤à¤¾ à¤²à¥‡à¤‚à¥¤"
  | .ta => "ðŸš¨ à®…à®µà®šà®°à®¨à®¿à®²à¯ˆ à®•à®£à¯à®Ÿà®±à®¿à®¯à®ªà¯à®ªà®Ÿà¯à®Ÿà®¤à¯ ðŸš¨\n\nà®‰à®™à¯à®•à®³à¯ à®…à®±à®¿à®•à¯à®±à®¿à®•à®³à¯ à®‰à®Ÿà®©à®Ÿà®¿ à®®à®°à¯à®¤à¯à®¤à¯à®µ à®•à®µà®©à®¿à®ªà¯à®ªà¯ à®¤à¯‡à®µà¯ˆà®ªà¯à®ªà®Ÿà¯à®®à¯ à®‰à®¯à®¿à®°à¯à®•à¯à®•à¯ à®†à®ªà®¤à¯à®¤à®¾à®© à®¨à®¿à®²à¯ˆà®¯à¯ˆà®•à¯ à®•à¯à®±à®¿à®•à¯à®•à®¿à®©à¯à®±à®©.\n\nâš ï¸ à®•à®¾à®¤à¯à®¤à®¿à®°à¯à®•à¯à®• à®µà¯‡à®£à¯à®Ÿà®¾à®®à¯ - à®‡à®ªà¯à®ªà¯‹à®¤à¯‡ à®šà¯†à®¯à®²à¯à®ªà®Ÿà¯à®™à¯à®•à®³à¯:\nðŸ“ž à®…à®µà®šà®° à®šà¯‡à®µà¯ˆà®•à®³à¯ˆ à®…à®´à¯ˆà®•à¯à®•à®µà¯à®®à¯: 108 (à®‡à®¨à¯à®¤à®¿à®¯à®¾)\nðŸ¥ à®‰à®Ÿà®©à®Ÿà®¿à®¯à®¾à®• à®…à®°à¯à®•à®¿à®²à¯à®³à¯à®³ à®®à®°à¯à®¤à¯à®¤à¯à®µà®®à®©à¯ˆ à®…à®µà®šà®° à®…à®±à¯ˆà®•à¯à®•à¯à®šà¯ à®šà¯†à®²à¯à®²à¯à®™à¯à®•à®³à¯\nðŸ‘¨â€âš•ï¸ à®•à®¿à®Ÿà¯ˆà®¤à¯à®¤à®¾à®²à¯, à®‰à®Ÿà®©à®Ÿà®¿à®¯à®¾à®• à®‰à®™à¯à®•à®³à¯ à®®à®°à¯à®¤à¯à®¤à¯à®µà®°à¯ˆà®¤à¯ à®¤à¯Šà®Ÿà®°à¯à®ªà¯ à®•à¯Šà®³à¯à®³à¯à®™à¯à®•à®³à¯\n\nà®‡à®¤à¯ à®’à®°à¯ à®®à®°à¯à®¤à¯à®¤à¯à®µ à®…à®µà®šà®°à®¨à®¿à®²à¯ˆ. AI à®µà®´à®¿à®•à®¾à®Ÿà¯à®Ÿà¯à®¤à®²à¯ à®…à®µà®šà®° à®®à®°à¯à®¤à¯à®¤à¯à®µ à®ªà®°à®¾à®®à®°à®¿à®ªà¯à®ªà¯ˆ à®®à®¾à®±à¯à®± à®®à¯à®Ÿà®¿à®¯à®¾à®¤à¯à¥¤\n\nà®…à®®à¯ˆà®¤à®¿à®¯à®¾à®• à®‡à®°à¯à®™à¯à®•à®³à¯ à®®à®±à¯à®±à¯à®®à¯ à®‰à®Ÿà®©à®Ÿà®¿à®¯à®¾à®• à®‰à®¤à®µà®¿ à®ªà¯†à®±à¯à®™à¯à®•à®³à¯."
  | .te => "ðŸš¨ à°…à°¤à±à°¯à°µà°¸à°° à°ªà°°à°¿à°¸à±à°¥à°¿à°¤à°¿ à°—à±à°°à±à°¤à°¿à°‚à°šà°¬à°¡à°¿à°‚à°¦à°¿ ðŸš¨\n\nà°®à±€ à°²à°•à±à°·à°£à°¾à°²à± à°¤à°•à±à°·à°£ à°µà±ˆà°¦à±à°¯ à°¸à°‚à°°à°•à±à°·à°£ à°…à°µà°¸à°°à°®à°¯à±à°¯à±‡ à°ªà±à°°à°¾à°£à°¾à°‚à°¤à°• à°ªà°°à°¿à°¸à±à°¥à°¿à°¤à°¿à°¨à°¿ à°¸à±‚à°šà°¿à°¸à±à°¤à±à°¨à±à°¨à°¾yi.\n\nâš ï¸ à°µà±‡à°šà°¿ à°‰à°‚à°¡à°•à°‚à°¡à°¿ - à°‡à°ªà±à°ªà±à°¡à±‡ à°šà°°à±à°¯ à°¤à±€à°¸à±à°•à±‹à°‚à°¡à°¿:\nðŸ“ž à°…à°¤à±à°¯à°µà°¸à°° à°¸à±‡à°µà°²à°•à± à°•à°¾à°²à± à°šà±‡à°¯à°‚à°¡à°¿: 108 (à°­à°¾à°°à°¤à°¦à±‡à°¶à°‚)\nðŸ¥ à°µà±†à°‚à°Ÿà°¨à±‡ à°¸à°®à±€à°ª à°†à°¸à±à°ªà°¤à±à°°à°¿ à°…à°¤à±à°¯à°µà°¸à°° à°µà°¿à°­à°¾à°—à°¾à°¨à°¿à°•à°¿ à°µà±†à°³à±à°²à°‚à°¡à°¿\nðŸ‘¨â€âš•ï¸ à°…à°‚à°¦à±à°¬à°¾à°Ÿà±à°²à±‹ à°‰à°‚à°Ÿà±‡, à°µà±†à°‚à°Ÿà°¨à±‡ à°®à±€ à°µà±ˆà°¦à±à°¯à±à°¡à°¿à°¨à°¿ à°¸à°‚à°ªà±à°°à°¦à°¿à°‚à°šà°‚à°¡à°¿\n\nà°‡à°¦à°¿ à°µà±ˆà°¦à±à°¯ à°…à°¤à±à°¯à°µà°¸à°° à°ªà°°à°¿à°¸à±à°¥à°¿à°¤à°¿. AI à°®à°¾à°°à±à°—à°¦à°°à±à°¶à°•à°¤à±à°µà°‚ à°…à°¤à±à°¯à°µà°¸à°° à°µà±ˆà°¦à±à°¯ à°¸à°‚à°°à°•à±à°·à°£à°¨à± à°­à°°à±à°¤à±€ à°šà±‡à°¯à°²à±‡à°¦à±.\n\nà°ªà±à°°à°¶à°¾à°‚à°¤à°‚à°—à°¾ à°‰à°‚à°¡à°‚à°¡à°¿ à°®à°°à°¿à°¯à± à°µà±†à°‚à°Ÿà°¨à±‡ à°¸à°¹à°¾à°¯à°‚ à°ªà±Šà°‚à°¦à°‚à°¡à°¿."
  | .bn => "ðŸš¨ à¦œà¦°à§à¦°à¦¿ à¦…à¦¬à¦¸à§à¦¥à¦¾ à¦¸à¦¨à¦¾à¦•à§à¦¤ à¦•à¦°à¦¾ à¦¹à¦¯à¦¼à§‡à¦›à§‡ ðŸš¨\n\nà¦†à¦ªà¦¨à¦¾à¦° à¦²à¦•à§à¦·à¦£à¦—à§à¦²à¦¿ à¦à¦•à¦Ÿà¦¿ à¦¸à¦®à§à¦­à¦¾à¦¬à§à¦¯ à¦œà§€à¦¬à¦¨-à¦¹à§à¦®à¦•à¦¿à¦ªà§‚à¦°à§à¦£ à¦ªà¦°à¦¿à¦¸à§à¦¥à¦¿à¦¤à¦¿ à¦¨à¦¿à¦°à§à¦¦à§‡à¦¶ à¦•à¦°à§‡ à¦¯à¦¾à¦° à¦œà¦¨à§à¦¯ à¦…à¦¬à¦¿à¦²à¦®à§à¦¬à§‡ à¦šà¦¿à¦•à¦¿à§Žà¦¸à¦¾ à¦®à¦¨à§‹à¦¯à§‹à¦— à¦ªà§à¦°à¦¯à¦¼à§‹à¦œà¦¨à¥¤\n\nâš ï¸ à¦…à¦ªà§‡à¦•à§à¦·à¦¾ à¦•à¦°à¦¬à§‡à¦¨ à¦¨à¦¾ - à¦à¦–à¦¨à¦‡ à¦•à¦¾à¦œ à¦•à¦°à§à¦¨:\nðŸ“ž à¦œà¦°à§à¦°à¦¿ à¦¸à§‡à¦¬à¦¾à¦¯à¦¼ à¦•à¦² à¦•à¦°à§à¦¨: 108 (à¦­à¦¾à¦°à¦¤)\nðŸ¥ à¦…à¦¬à¦¿à¦²à¦®à§à¦¬à§‡ à¦¨à¦¿à¦•à¦Ÿà¦¤à¦® à¦¹à¦¾à¦¸à¦ªà¦¾à¦¤à¦¾à¦²à§‡à¦° à¦œà¦°à§à¦°à¦¿ à¦•à¦•à§à¦·à§‡ à¦¯à¦¾à¦¨\nðŸ‘¨â€âš•ï¸ à¦‰à¦ªà¦²à¦¬à§à¦§ à¦¥à¦¾à¦•à¦²à§‡, à¦…à¦¬à¦¿à¦²à¦®à§à¦¬à§‡ à¦†à¦ªà¦¨à¦¾à¦° à¦¡à¦¾à¦•à§à¦¤à¦¾à¦°à§‡à¦° à¦¸à¦¾à¦¥à§‡ à¦¯à§‹à¦—à¦¾à¦¯à§‹à¦— à¦•à¦°à§à¦¨\n\nà¦à¦Ÿà¦¿ à¦à¦•à¦Ÿà¦¿ à¦šà¦¿à¦•à¦¿à§Žà¦¸à¦¾ à¦œà¦°à§à¦°à¦¿ à¦…à¦¬à¦¸à§à¦¥à¦¾à¥¤ AI à¦¨à¦¿à¦°à§à¦¦à§‡à¦¶à¦¨à¦¾ à¦œà¦°à§à¦°à¦¿ à¦šà¦¿à¦•à¦¿à§Žà¦¸à¦¾ à¦¸à§‡à¦¬à¦¾ à¦ªà§à¦°à¦¤à¦¿à¦¸à§à¦¥à¦¾à¦ªà¦¨ à¦•à¦°à¦¤à§‡ à¦ªà¦¾à¦°à§‡ à¦¨à¦¾à¥¤\n\nà¦¶à¦¾à¦¨à§à¦¤ à¦¥à¦¾à¦•à§à¦¨ à¦à¦¬à¦‚ à¦…à¦¬à¦¿à¦²à¦®à§à¦¬à§‡ à¦¸à¦¾à¦¹à¦¾à¦¯à§à¦¯ à¦¨à¦¿à¦¨à¥¤"

/-- Model of `checkEmergencyKeywords`: guard malformed input (falsy or
non-string values yield a plain non-emergency result), lower-case and trim
the input, collect every keyword contained in it, and when any matched
return the advisory for the requested language.  The `EMERGENCY_RESPONSES[language] || EMERGENCY_RESPONSES.en`
fallback of the source is unreachable here because `Language` enumerates
exactly the keys of the response table. -/
def checkEmergencyKeywords (input : JsValue) (language : Language) : SafetyCheckResult :=
  match input with
  | .str s =>
    if s = "" then ⟨false, none, none⟩
    else
      let normalizedInput : List Char := jsTrim (toLowerList s.data)
      let detectedKeywords : List String := EMERGENCY_KEYWORDS.filter
        (fun keyword => decide (toLowerList keyword.data <:+: normalizedInput))
      if detectedKeywords.length > 0 then
        ⟨true, some (EMERGENCY_RESPONSES language), some detectedKeywords⟩
      else
        ⟨false, none, none⟩
  | _ => ⟨false, none, none⟩

/-- The specification notion of a match: the keyword occurs as a
case-insensitive substring of the raw input string. -/
def keywordMatchesInput (input keyword : String) : Prop :=
  toLowerList keyword.data <:+: toLowerList input.data

instance (input keyword : String) : Decidable (keywordMatchesInput input keyword) :=
  inferInstanceAs (Decidable (_ <:+: _))

/-! ### Prakriti Calculation Algorithm (`src/lib/prakriti-calculator.ts`)

JavaScript numbers are modelled as exact rationals; `Math.round` is modelled
as `⌊x + 1/2⌋` (its behaviour on every value this algorithm produces). -/

/-- Dosha weights attached to a quiz answer. -/
structure DoshaWeights where
  vata : ℚ
  pitta : ℚ
  kapha : ℚ
deriving DecidableEq, Repr

/-- A quiz answer: question id, chosen answer value and the dosha weights of
the question. -/
structure QuizAnswer where
  questionId : Int
  answer : ℚ
  doshaWeights : DoshaWeights
deriving DecidableEq, Repr

/-- The per-dosha score triple. -/
structure PrakritiScores where
  vata : ℚ
  pitta : ℚ
  kapha : ℚ
deriving DecidableEq, Repr

/-- The dosha classification labels (the fourth label only ever appears as a
dominant classification). -/
inductive DoshaType where
  | vata
  | pitta
  | kapha
  | balanced
deriving DecidableEq, Repr

/-- A computed constitution profile.  The source also stamps the profile with
`assessmentDate = new Date().toISOString()`, a wall-clock effect outside the
pure model, so that field is not carried here. -/
structure PrakritiProfile where
  userId : String
  scores : PrakritiScores
  dominant : DoshaType
  secondary : Option DoshaType
deriving DecidableEq, Repr

/-- JavaScript `Math.round` (round half towards positive infinity). -/
def jsRound (q : ℚ) : Int :=
  ⌊q + 1 / 2⌋

/-- The body of the accumulation loop of `calculateRawScores`: each answer is
validated to lie in `[1,5]` (an out-of-range value aborts the whole
computation with a validation error, exactly where the source throws) and
otherwise contributes `answer × weight` to each dosha. -/
def calculateRawScoresLoop (scores : PrakritiScores) : List QuizAnswer → Except String PrakritiScores
  | [] => .ok scores
  | answer :: rest =>
    if answer.answer < 1 ∨ answer.answer > 5 then
      .error ("Invalid answer value: " ++ toString answer.answer ++ ". Must be between 1 and 5.")
    else
      calculateRawScoresLoop
        ⟨scores.vata + answer.answer * answer.doshaWeights.vata,
         scores.pitta + answer.answer * answer.doshaWeights.pitta,
         scores.kapha + answer.answer * answer.doshaWeights.kapha⟩ rest

/-- Calculate raw scores by summing weighted answers. -/
def calculateRawScores (answers : List QuizAnswer) : Except String PrakritiScores :=
  calculateRawScoresLoop ⟨0, 0, 0⟩ answers

/-- Normalize scores to the 0-100 scale: each raw score is divided by the
maximal raw score, scaled to 100 and rounded to two decimals; when all raw
scores are zero the balanced tie value `33.33` is emitted for each dosha. -/
def normalizeScores (rawScores : PrakritiScores) : PrakritiScores :=
  let maxScore := max rawScores.vata (max rawScores.pitta rawScores.kapha)
  if maxScore = 0 then
    ⟨33.33, 33.33, 33.33⟩
  else
    ⟨(jsRound (rawScores.vata / maxScore * 100 * 100) : ℚ) / 100,
     (jsRound (rawScores.pitta / maxScore * 100 * 100) : ℚ) / 100,
     (jsRound (rawScores.kapha / maxScore * 100 * 100) : ℚ) / 100⟩

/-- One insertion step of the stable descending insertion sort used to model
`doshaScores.sort((a, b) => b[1] - a[1])`: an element is placed before the
first element whose score it at least matches, so equal scores keep their
original relative order, exactly the stable-sort guarantee of
`Array.prototype.sort`. -/
def insertScoreDesc (x : DoshaType × ℚ) : List (DoshaType × ℚ) → List (DoshaType × ℚ)
  | [] => [x]
  | y :: rest => if x.2 ≥ y.2 then x :: y :: rest else y :: insertScoreDesc x rest

/-- Stable descending sort by score of the dosha/score pairs. -/
def sortByScoreDesc (l : List (DoshaType × ℚ)) : List (DoshaType × ℚ) :=
  l.foldr insertScoreDesc []

/-- The dominant/secondary classification computed from normalized scores. -/
structure DoshaDetermination where
  dominant : DoshaType
  secondary : Option DoshaType
deriving DecidableEq, Repr

/-- Determine dominant and secondary doshas from the normalized scores:
rank the three doshas by descending score; `balanced` when the first and
third scores differ by at most 10; otherwise the top dosha dominates and the
runner-up is secondary when it is within 15 of the top and strictly above
third place.  The list of dosha/score pairs always has three elements, so
the fallback match arm is unreachable. -/
def determineDoshas (scores : PrakritiScores) : DoshaDetermination :=
  let doshaScores : List (DoshaType × ℚ) :=
    [(.vata, scores.vata), (.pitta, scores.pitta), (.kapha, scores.kapha)]
  match sortByScoreDesc doshaScores with
  | (firstDosha, firstScore) :: (secondDosha, secondScore) :: (_, thirdScore) :: _ =>
    let scoreRange := firstScore - thirdScore
    if scoreRange ≤ 10 then
      ⟨.balanced, none⟩
    else if firstScore - secondScore ≤ 15 ∧ thirdScore < secondScore then
      ⟨firstDosha, some secondDosha⟩
    else
      ⟨firstDosha, none⟩
  | _ => ⟨.balanced, none⟩

/-- Calculate a Prakriti profile from quiz answers, mirroring
`calculatePrakriti`: reject a missing or all-whitespace user id and an empty
answer list, then score, normalize and classify. -/
def calculatePrakriti (userId : String) (answers : List QuizAnswer) : Except String PrakritiProfile :=
  if userId = "" ∨ jsStringTrim userId = "" then
    .error "userId is required"
  else if answers.length = 0 then
    .error "At least one answer is required"
  else
    match calculateRawScores answers with
    | .error e => .error e
    | .ok rawScores =>
      let normalizedScores := normalizeScores rawScores
      let determination := determineDoshas normalizedScores
      .ok ⟨userId, normalizedScores, determination.dominant, determination.secondary⟩

/-! ### Anonymizer and privacy validator (`src/lib/dynamodb-utils.ts`) -/

/-- The location carried by a raw symptom report; the anonymizer copies only
its pincode, never the broader fields. -/
structure ReportLocation where
  pincode : String
  state : String
  fullAddress : String
deriving DecidableEq, Repr

/-- A raw symptom report as accepted by `anonymizeForSentinel`: the
`SymptomReport` fields together with the optional directly-identifying
fields of the intersection type `SymptomReport & \x7bname?, phone?, email?,
fullAddress?\x7d`. -/
structure SymptomReportWithPII where
  userId : String
  symptomType : String
  severity : String
  location : ReportLocation
  timestamp : Int
  name : Option String
  phone : Option String
  email : Option String
  fullAddress : Option String
deriving DecidableEq, Repr

/-- Model of `anonymizeForSentinel`.  The SHA-256 hex digest primitive of
`node:crypto` is the external cryptography collaborator and is passed in as
the function `sha256hex`; the source computes
`createHash("sha256").update(userId ++ salt).digest("hex")`.  The returned
dynamic object carries exactly the five anonymized properties of the source
object literal, in source order. -/
def anonymizeForSentinel (sha256hex : String → String)
    (report : SymptomReportWithPII) (salt : String) : JsRecord :=
  let hashedUserId := sha256hex (report.userId ++ salt)
  [("hashedUserId", .str hashedUserId),
   ("symptomType", .str report.symptomType),
   ("severity", .str report.severity),
   ("pincode", .str report.location.pincode),
   ("timestamp", .num report.timestamp)]

/-- The forbidden directly-identifying fields, in the order the validator
scans them. -/
def piiFields : List String :=
  ["name", "phone", "email", "fullAddress", "address"]

/-- Model of `validateAnonymization`: reject (with an error naming the
field) the first forbidden key present on the record; then reject a `userId`
property that is truthy but whose `.length` differs from the 64 hex
characters of a SHA-256 digest (on a truthy non-string value `.length` is
`undefined`, which also differs from 64); otherwise return `true`. -/
def validateAnonymization (data : JsRecord) : Except String Bool :=
  match piiFields.find? (fun field => hasOwnProperty data field) with
  | some field =>
    .error ("PII field \x27" ++ field ++ "\x27 detected in anonymized data. DPDP Act 2023 violation.")
  | none =>
    match getProperty data "userId" with
    | some v =>
      if jsTruthy v && !(jsLength v == some 64) then
        .error "userId must be hashed before storage in public health database"
      else
        .ok true
    | none => .ok true

/-! ### Region aggregator (`src/lib/dynamodb-utils.ts`) -/

/-- A persisted anonymized symptom entity, with the single-table keys
produced by `createSymptom`. -/
structure SymptomEntity where
  PK : String
  SK : String
  symptomType : String
  count : Int
  severity : String
  date : String
  GSI1PK : String
  GSI1SK : String
deriving DecidableEq, Repr

/-- `Map.prototype.get` on the insertion-ordered aggregation map. -/
def mapGet (m : List (String × Int)) (key : String) : Option Int :=
  (m.find? (fun entry => entry.1 == key)).map Prod.snd

/-- `Map.prototype.set` on the insertion-ordered aggregation map: an
existing key is updated in place, a new key is appended. -/
def mapSet : List (String × Int) → String → Int → List (String × Int)
  | [], key, value => [(key, value)]
  | entry :: rest, key, value =>
    if entry.1 = key then (key, value) :: rest else entry :: mapSet rest key value

/-- The loop body of the aggregation fold: one record adds its `count` to
the running total of its `symptomType`, starting from 0
(`aggregation.get(...) || 0`). -/
def aggregateStep (aggregation : List (String × Int)) (symptom : SymptomEntity) :
    List (String × Int) :=
  mapSet aggregation symptom.symptomType
    ((mapGet aggregation symptom.symptomType).getD 0 + symptom.count)

/-- The pure fold of `aggregateSymptomsByRegion` over the record collection
fetched for the requested region and date (the DynamoDB read supplying
`symptoms` is the external storage collaborator). -/
def aggregateSymptomsByRegion (symptoms : List SymptomEntity) : List (String × Int) :=
  symptoms.foldl aggregateStep []

/-- Whether an `Except` computation failed. -/
def isError {ε α : Type} : Except ε α → Bool
  | .error _ => true
  | .ok _ => false

/-- The two sample records of the aggregation spec example: same region and
date, both of symptom type "fever", with counts 3 and 2. -/
def feverRecordA : SymptomEntity :=
  ⟨"REGION#110001", "SYMPTOM#fever#2024-01-01", "fever", 3, "medium", "2024-01-01",
   "SYMPTOM#fever", "DATE#2024-01-01"⟩

/-- Companion record to `feverRecordA` with count 2. -/
def feverRecordB : SymptomEntity :=
  ⟨"REGION#110001", "SYMPTOM#fever#2024-01-01", "fever", 2, "low", "2024-01-01",
   "SYMPTOM#fever", "DATE#2024-01-01"⟩

/-- A sample single-answer quiz: answer value 3, all weights 1. -/
def sampleQuizAnswers : List QuizAnswer :=
  [⟨1, 3, ⟨1, 1, 1⟩⟩]

/-- The profile `calculatePrakriti` computes for `sampleQuizAnswers`: every
normalized score is 100, hence a balanced classification. -/
def sampleProfile : PrakritiProfile :=
  ⟨"user1", ⟨100, 100, 100⟩, .balanced, none⟩

/-- Decidable equality of `Except` results, for evaluating the model on
concrete inputs. -/
instance {ε α : Type} [DecidableEq ε] [DecidableEq α] : DecidableEq (Except ε α) := fun x y =>
  match x, y with
  | .error a, .error b =>
    if h : a = b then isTrue (congrArg Except.error h)
    else isFalse (fun hc => h (Except.error.inj hc))
  | .ok a, .ok b =>
    if h : a = b then isTrue (congrArg Except.ok h)
    else isFalse (fun hc => h (Except.ok.inj hc))
  | .error _, .ok _ => isFalse (fun hc => Except.noConfusion hc)
  | .ok _, .error _ => isFalse (fun hc => Except.noConfusion hc)

/-- Whether a character list is non-empty and starts with a non-whitespace
character (a decidable helper for checking the keyword table). -/
def headNotWs : List Char → Bool
  | [] => false
  | c :: _ => !isJsWhitespace c

/-! ## Theorems -/

/-- Claim C1: for every raw symptom report, including reports that carry
`name`, `phone`, `email` or `fullAddress` fields, the record returned by
`anonymizeForSentinel` contains none of those keys, its `pincode` equals the
pincode of the input report unchanged, and the output consists only of
`hashedUserId`, `symptomType`, `severity`, `pincode` and `timestamp`. -/
theorem anonymizeForSentinel_strips_pii (sha256hex : String → String)
    (report : SymptomReportWithPII) (salt : String) :
    (anonymizeForSentinel sha256hex report salt).map Prod.fst =
      ["hashedUserId", "symptomType", "severity", "pincode", "timestamp"] ∧
    hasOwnProperty (anonymizeForSentinel sha256hex report salt) "name" = false ∧
    hasOwnProperty (anonymizeForSentinel sha256hex report salt) "phone" = false ∧
    hasOwnProperty (anonymizeForSentinel sha256hex report salt) "email" = false ∧
    hasOwnProperty (anonymizeForSentinel sha256hex report salt) "fullAddress" = false ∧
    getProperty (anonymizeForSentinel sha256hex report salt) "pincode" =
      some (.str report.location.pincode) :=
  ⟨rfl, rfl, rfl, rfl, rfl, rfl⟩

/-- Claim C2: `checkEmergencyKeywords` is total by construction, and on
`null`, `undefined`, the empty string, numbers and booleans it returns a
result with `isEmergency = false` and neither keywords nor advisory text. -/
theorem checkEmergencyKeywords_total_on_malformed_input (language : Language)
    (n : Int) (b : Bool) :
    checkEmergencyKeywords .jsNull language = ⟨false, none, none⟩ ∧
    checkEmergencyKeywords .jsUndefined language = ⟨false, none, none⟩ ∧
    checkEmergencyKeywords (.str "") language = ⟨false, none, none⟩ ∧
    checkEmergencyKeywords (.num n) language = ⟨false, none, none⟩ ∧
    checkEmergencyKeywords (.boolean b) language = ⟨false, none, none⟩ :=
  ⟨rfl, rfl, rfl, rfl, rfl⟩

/-- Claim C9: the digest-length check of `validateAnonymization` is guarded
by JavaScript truthiness, so a record whose `userId` is present but equal to
the empty string (which is not a 64-character digest) passes validation when
no forbidden key is present. -/
theorem validateAnonymization_accepts_empty_userId (data : JsRecord)
    (huid : getProperty data "userId" = some (JsValue.str ""))
    (hpii : ∀ field ∈ piiFields, hasOwnProperty data field = false) :
    validateAnonymization data = .ok true := by
  have hfind : piiFields.find? (fun field => hasOwnProperty data field) = none := by
    rw [List.find?_eq_none]
    intro x hx
    simp [hpii x hx]
  simp only [validateAnonymization, hfind, huid]
  rfl

/-- Witness for C9 at the concrete record `{userId: ""}`. -/
theorem validateAnonymization_accepts_empty_userId_witness :
    validateAnonymization [("userId", JsValue.str "")] = .ok true :=
  validateAnonymization_accepts_empty_userId _ rfl (by decide)

/-- Counterexample to claim C4 as stated: on the record `{userId: ""}` the
`userId` key is present and its length (0) is not the 64-character digest
length, yet `validateAnonymization` accepts the record instead of raising. -/
theorem validateAnonymization_claim_counterexample :
    hasOwnProperty [("userId", JsValue.str "")] "userId" = true ∧
    jsLength (JsValue.str "") ≠ some 64 ∧
    validateAnonymization [("userId", JsValue.str "")] = .ok true := by
  decide

/-- Claim C4 (amended): `validateAnonymization` fails naming the first
forbidden key present on the record; with no forbidden key present it fails
on a `userId` property exactly when that property is truthy (non-empty)
with a length other than 64, and returns `true` otherwise. -/
theorem validateAnonymization_amended_spec (data : JsRecord) :
    (∀ field, piiFields.find? (fun f => hasOwnProperty data f) = some field →
      field ∈ piiFields ∧ hasOwnProperty data field = true ∧
      validateAnonymization data =
        .error ("PII field \x27" ++ field ++ "\x27 detected in anonymized data. DPDP Act 2023 violation.")) ∧
    (∀ v, (∀ field ∈ piiFields, hasOwnProperty data field = false) →
      getProperty data "userId" = some v → jsTruthy v = true → jsLength v ≠ some 64 →
      validateAnonymization data =
        .error "userId must be hashed before storage in public health database") ∧
    ((∀ field ∈ piiFields, hasOwnProperty data field = false) →
      (∀ v, getProperty data "userId" = some v → jsTruthy v = true → jsLength v = some 64) →
      validateAnonymization data = .ok true) := by
  refine ⟨?_, ?_, ?_⟩
  · intro field hf
    exact ⟨List.mem_of_find?_eq_some hf, List.find?_some hf, by simp only [validateAnonymization, hf]⟩
  · intro v hpii hv htruthy hlen
    have hfind : piiFields.find? (fun field => hasOwnProperty data field) = none := by
      rw [List.find?_eq_none]
      intro x hx
      simp [hpii x hx]
    have hbeq : (jsLength v == some 64) = false := beq_eq_false_iff_ne.mpr hlen
    simp only [validateAnonymization, hfind, hv, htruthy, hbeq]
    rfl
  · intro hpii hok
    have hfind : piiFields.find? (fun field => hasOwnProperty data field) = none := by
      rw [List.find?_eq_none]
      intro x hx
      simp [hpii x hx]
    simp only [validateAnonymization, hfind]
    cases hu : getProperty data "userId" with
    | none => rfl
    | some v =>
      cases htruthy : jsTruthy v with
      | false => simp [htruthy]
      | true =>
        have h64 := hok v hu htruthy
        simp [htruthy, h64]

/-- Witness for the amended C4 at the concrete record `{name: "Asha"}`. -/
theorem validateAnonymization_amended_spec_witness :
    validateAnonymization [("name", JsValue.str "Asha")] =
      .error "PII field \x27name\x27 detected in anonymized data. DPDP Act 2023 violation." :=
  ((validateAnonymization_amended_spec [("name", JsValue.str "Asha")]).1 "name" (by decide)).2.2

/-- Reading the aggregation map after a `set`: the written key now holds the
written value and every other key is untouched. -/
theorem mapGet_mapSet (m : List (String × Int)) (k k' : String) (v : Int) :
    mapGet (mapSet m k v) k' = if k' = k then some v else mapGet m k' := by
  induction m with
  | nil =>
    by_cases h : k' = k
    · subst h
      rw [if_pos rfl]
      simp only [mapSet, mapGet]
      rw [List.find?_cons_of_pos _ (by simp)]
      rfl
    · rw [if_neg h]
      simp only [mapSet, mapGet]
      rw [List.find?_cons_of_neg _ (by simp only [beq_iff_eq]; exact Ne.symm h)]
  | cons entry rest ih =>
    simp only [mapSet]
    by_cases h1 : entry.1 = k
    · rw [if_pos h1]
      by_cases h : k' = k
      · subst h
        rw [if_pos rfl]
        simp only [mapGet]
        rw [List.find?_cons_of_pos _ (by simp)]
        rfl
      · rw [if_neg h]
        simp only [mapGet]
        rw [List.find?_cons_of_neg _ (by simp only [beq_iff_eq]; exact Ne.symm h),
          List.find?_cons_of_neg _ (by simp only [beq_iff_eq]; rw [h1]; exact Ne.symm h)]
    · rw [if_neg h1]
      by_cases h2 : entry.1 = k'
      · have hk : ¬k' = k := fun hc => h1 (h2.trans hc)
        rw [if_neg hk]
        simp only [mapGet]
        rw [List.find?_cons_of_pos _ (by simp [h2]), List.find?_cons_of_pos _ (by simp [h2])]
      · by_cases h : k' = k
        · rw [if_pos h]
          simp only [mapGet] at ih ⊢
          rw [List.find?_cons_of_neg _ (by simp only [beq_iff_eq]; exact h2)]
          rw [ih, if_pos h]
        · rw [if_neg h]
          simp only [mapGet] at ih ⊢
          rw [List.find?_cons_of_neg _ (by simp only [beq_iff_eq]; exact h2),
            List.find?_cons_of_neg _ (by simp only [beq_iff_eq]; exact h2)]
          rw [ih, if_neg h]

/-- The running aggregation fold adds, for any key, exactly the sum of the
counts of the records carrying that symptom type. -/
theorem aggregateFold_getD (l : List SymptomEntity) : ∀ (m : List (String × Int)) (k : String),
    (mapGet (l.foldl aggregateStep m) k).getD 0 =
      (mapGet m k).getD 0 + (l.map (fun s => if s.symptomType = k then s.count else 0)).sum := by
  induction l with
  | nil => intro m k; simp
  | cons s rest ih =>
    intro m k
    rw [List.foldl_cons, ih, List.map_cons, List.sum_cons]
    have hstep : (mapGet (aggregateStep m s) k).getD 0 =
        (mapGet m k).getD 0 + (if s.symptomType = k then s.count else 0) := by
      simp only [aggregateStep, mapGet_mapSet]
      by_cases hk : k = s.symptomType
      · rw [if_pos hk, if_pos hk.symm, hk]
        simp
      · rw [if_neg hk, if_neg (fun hc => hk hc.symm), add_zero]
    rw [hstep]
    ring

/-- For any key, `aggregateSymptomsByRegion` returns the sum of the counts
of the records of that symptom type. -/
theorem aggregateSymptomsByRegion_getD (l : List SymptomEntity) (k : String) :
    (mapGet (aggregateSymptomsByRegion l) k).getD 0 =
      (l.map (fun s => if s.symptomType = k then s.count else 0)).sum := by
  rw [aggregateSymptomsByRegion, aggregateFold_getD]
  simp [mapGet]

/-- Claim C6: the aggregation sums the `count` field per symptom type — two
same-region records of type "fever" with counts 3 and 2 aggregate to the
single binding `fever ↦ 5` — and the counts read off the aggregation map
are invariant under any permutation of the fetched record collection. -/
theorem aggregateSymptomsByRegion_spec :
    aggregateSymptomsByRegion [feverRecordA, feverRecordB] = [("fever", 5)] ∧
    (∀ (l : List SymptomEntity) (k : String),
      (mapGet (aggregateSymptomsByRegion l) k).getD 0 =
        (l.map (fun s => if s.symptomType = k then s.count else 0)).sum) ∧
    (∀ (l₁ l₂ : List SymptomEntity), l₁.Perm l₂ → ∀ k : String,
      (mapGet (aggregateSymptomsByRegion l₁) k).getD 0 =
        (mapGet (aggregateSymptomsByRegion l₂) k).getD 0) := by
  refine ⟨by decide, aggregateSymptomsByRegion_getD, ?_⟩
  intro l₁ l₂ hperm k
  rw [aggregateSymptomsByRegion_getD, aggregateSymptomsByRegion_getD]
  exact (hperm.map _).sum_eq

/-- Witness for C6: the two sample records aggregated in either order give
the same count for "fever". -/
theorem aggregateSymptomsByRegion_spec_witness :
    (mapGet (aggregateSymptomsByRegion [feverRecordA, feverRecordB]) "fever").getD 0 =
      (mapGet (aggregateSymptomsByRegion [feverRecordB, feverRecordA]) "fever").getD 0 :=
  aggregateSymptomsByRegion_spec.2.2 [feverRecordA, feverRecordB]
    [feverRecordB, feverRecordA] (by decide) "fever"

/-- The scoring loop fails exactly when some answer value lies outside
`[1,5]`, regardless of the accumulator it starts from. -/
theorem calculateRawScoresLoop_error_iff (answers : List QuizAnswer) :
    ∀ init : PrakritiScores,
      isError (calculateRawScoresLoop init answers) = true ↔
        ∃ a ∈ answers, a.answer < 1 ∨ 5 < a.answer := by
  induction answers with
  | nil => intro init; simp [calculateRawScoresLoop, isError]
  | cons a rest ih =>
    intro init
    by_cases hbad : a.answer < 1 ∨ a.answer > 5
    · rw [calculateRawScoresLoop, if_pos hbad]
      simp only [isError, true_iff]
      exact ⟨a, List.mem_cons_self a rest, hbad⟩
    · rw [calculateRawScoresLoop, if_neg hbad, ih]
      constructor
      · rintro ⟨x, hx, hxbad⟩
        exact ⟨x, List.mem_cons_of_mem _ hx, hxbad⟩
      · rintro ⟨x, hx, hxbad⟩
        rcases List.mem_cons.mp hx with hx | hx
        · subst hx
          exact absurd hxbad hbad
        · exact ⟨x, hx, hxbad⟩

/-- When the scoring loop succeeds from a componentwise-nonnegative
accumulator on answers with nonnegative values and weights, the resulting
raw scores are nonnegative. -/
theorem calculateRawScoresLoop_nonneg (answers : List QuizAnswer) :
    ∀ init s : PrakritiScores,
      (∀ a ∈ answers, 0 ≤ a.answer ∧ 0 ≤ a.doshaWeights.vata ∧
        0 ≤ a.doshaWeights.pitta ∧ 0 ≤ a.doshaWeights.kapha) →
      0 ≤ init.vata → 0 ≤ init.pitta → 0 ≤ init.kapha →
      calculateRawScoresLoop init answers = .ok s →
      0 ≤ s.vata ∧ 0 ≤ s.pitta ∧ 0 ≤ s.kapha := by
  induction answers with
  | nil =>
    intro init s _ h1 h2 h3 hok
    rw [calculateRawScoresLoop] at hok
    cases hok
    exact ⟨h1, h2, h3⟩
  | cons a rest ih =>
    intro init s hall h1 h2 h3 hok
    by_cases hbad : a.answer < 1 ∨ a.answer > 5
    · rw [calculateRawScoresLoop, if_pos hbad] at hok
      cases hok
    · rw [calculateRawScoresLoop, if_neg hbad] at hok
      have ha := hall a (List.mem_cons_self a rest)
      exact ih _ s (fun x hx => hall x (List.mem_cons_of_mem _ hx))
        (add_nonneg h1 (mul_nonneg ha.1 ha.2.1))
        (add_nonneg h2 (mul_nonneg ha.1 ha.2.2.1))
        (add_nonneg h3 (mul_nonneg ha.1 ha.2.2.2)) hok

/-- Behaviour of the ranked-classification tail expression of
`determineDoshas`, given that the first-ranked score is the overall maximum
and the third-ranked score the overall minimum. -/
theorem determineCore_spec (fd sd : DoshaType) (fs ss ts M m : ℚ)
    (hfd : fd ≠ DoshaType.balanced) (hM : M = fs) (hm : m = ts) :
    ((if fs - ts ≤ 10 then (⟨.balanced, none⟩ : DoshaDetermination)
      else if fs - ss ≤ 15 ∧ ts < ss then ⟨fd, some sd⟩
      else ⟨fd, none⟩).dominant = DoshaType.balanced ↔ M - m ≤ 10) ∧
    ((if fs - ts ≤ 10 then (⟨.balanced, none⟩ : DoshaDetermination)
      else if fs - ss ≤ 15 ∧ ts < ss then ⟨fd, some sd⟩
      else ⟨fd, none⟩).dominant = DoshaType.balanced →
      (if fs - ts ≤ 10 then (⟨.balanced, none⟩ : DoshaDetermination)
       else if fs - ss ≤ 15 ∧ ts < ss then ⟨fd, some sd⟩
       else ⟨fd, none⟩).secondary = none) := by
  rw [hM, hm]
  by_cases h10 : fs - ts ≤ 10
  · rw [if_pos h10]
    exact ⟨iff_of_true rfl h10, fun _ => rfl⟩
  · rw [if_neg h10]
    by_cases hsec : fs - ss ≤ 15 ∧ ts < ss
    · rw [if_pos hsec]
      exact ⟨iff_of_false hfd h10, fun hc => absurd hc hfd⟩
    · rw [if_neg hsec]
      exact ⟨iff_of_false hfd h10, fun hc => absurd hc hfd⟩

/-- The dominant dosha is `balanced` exactly when the spread between the
maximal and minimal score is at most 10, and a balanced classification
never carries a secondary dosha. -/
theorem determineDoshas_spec (s : PrakritiScores) :
    ((determineDoshas s).dominant = DoshaType.balanced ↔
      max s.vata (max s.pitta s.kapha) - min s.vata (min s.pitta s.kapha) ≤ 10) ∧
    ((determineDoshas s).dominant = DoshaType.balanced → (determineDoshas s).secondary = none) := by
  obtain ⟨va, pi, ka⟩ := s
  show ((determineDoshas ⟨va, pi, ka⟩).dominant = DoshaType.balanced ↔
      max va (max pi ka) - min va (min pi ka) ≤ 10) ∧ _
  simp only [determineDoshas, sortByScoreDesc, List.foldr, insertScoreDesc]
  rcases le_or_lt ka pi with h1 | h1
  · rw [if_pos (show pi ≥ ka from h1)]
    simp only [insertScoreDesc]
    rcases le_or_lt pi va with h2 | h2
    · rw [if_pos (show va ≥ pi from h2)]
      dsimp only
      exact determineCore_spec .vata .pitta va pi ka _ _ (by decide)
        (by rw [max_eq_left h1, max_eq_left h2])
        (by rw [min_eq_right h1, min_eq_right (h1.trans h2)])
    · rw [if_neg (show ¬va ≥ pi from not_le.mpr h2)]
      rcases le_or_lt ka va with h3 | h3
      · rw [if_pos (show va ≥ ka from h3)]
        dsimp only
        exact determineCore_spec .pitta .vata pi va ka _ _ (by decide)
          (by rw [max_eq_left h1, max_eq_right h2.le])
          (by rw [min_eq_right h1, min_eq_right h3])
      · rw [if_neg (show ¬va ≥ ka from not_le.mpr h3)]
        dsimp only
        exact determineCore_spec .pitta .kapha pi ka va _ _ (by decide)
          (by rw [max_eq_left h1, max_eq_right h2.le])
          (by rw [min_eq_right h1, min_eq_left h3.le])
  · rw [if_neg (show ¬pi ≥ ka from not_le.mpr h1)]
    simp only [insertScoreDesc]
    rcases le_or_lt ka va with h2 | h2
    · rw [if_pos (show va ≥ ka from h2)]
      dsimp only
      exact determineCore_spec .vata .kapha va ka pi _ _ (by decide)
        (by rw [max_eq_right h1.le, max_eq_left h2])
        (by rw [min_eq_left h1.le, min_eq_right (h1.le.trans h2)])
    · rw [if_neg (show ¬va ≥ ka from not_le.mpr h2)]
      rcases le_or_lt pi va with h3 | h3
      · rw [if_pos (show va ≥ pi from h3)]
        dsimp only
        exact determineCore_spec .kapha .vata ka va pi _ _ (by decide)
          (by rw [max_eq_right h1.le, max_eq_right h2.le])
          (by rw [min_eq_left h1.le, min_eq_right h3])
      · rw [if_neg (show ¬va ≥ pi from not_le.mpr h3)]
        dsimp only
        exact determineCore_spec .kapha .pitta ka pi va _ _ (by decide)
          (by rw [max_eq_right h1.le, max_eq_right h2.le])
          (by rw [min_eq_left h1.le, min_eq_left h3.le])

/-- Normalization maps componentwise-nonnegative raw scores into `[0,100]`:
each ratio to the maximal raw score lies in `[0,1]`, so its scaled rounding
lies in `[0,10000]`, and the balanced tie value `33.33` is in range too. -/
theorem normalizeScores_bounds (raw : PrakritiScores)
    (h1 : 0 ≤ raw.vata) (h2 : 0 ≤ raw.pitta) (h3 : 0 ≤ raw.kapha) :
    (0 ≤ (normalizeScores raw).vata ∧ (normalizeScores raw).vata ≤ 100) ∧
    (0 ≤ (normalizeScores raw).pitta ∧ (normalizeScores raw).pitta ≤ 100) ∧
    (0 ≤ (normalizeScores raw).kapha ∧ (normalizeScores raw).kapha ≤ 100) := by
  obtain ⟨va, pi, ka⟩ := raw
  simp only [normalizeScores]
  by_cases h0 : max va (max pi ka) = 0
  · rw [if_pos h0]
    norm_num
  · rw [if_neg h0]
    have hmaxpos : 0 < max va (max pi ka) :=
      lt_of_le_of_ne (le_trans h1 (le_max_left _ _)) (Ne.symm h0)
    have key : ∀ x : ℚ, 0 ≤ x → x ≤ max va (max pi ka) →
        0 ≤ (jsRound (x / max va (max pi ka) * 100 * 100) : ℚ) / 100 ∧
        (jsRound (x / max va (max pi ka) * 100 * 100) : ℚ) / 100 ≤ 100 := by
      intro x hx hxle
      have hdiv0 : 0 ≤ x / max va (max pi ka) := div_nonneg hx hmaxpos.le
      have hdiv1 : x / max va (max pi ka) ≤ 1 := (div_le_one hmaxpos).mpr hxle
      have hlow : (0 : Int) ≤ jsRound (x / max va (max pi ka) * 100 * 100) := by
        rw [jsRound]
        refine Int.le_floor.mpr ?_
        push_cast
        nlinarith
      have hhigh : jsRound (x / max va (max pi ka) * 100 * 100) ≤ 10000 := by
        rw [jsRound]
        have hlt : x / max va (max pi ka) * 100 * 100 + 1 / 2 < ((10001 : Int) : ℚ) := by
          push_cast
          nlinarith
        have := Int.floor_lt.mpr hlt
        omega
      constructor
      · have hc : (0 : ℚ) ≤ (jsRound (x / max va (max pi ka) * 100 * 100) : ℚ) := by
          exact_mod_cast hlow
        linarith
      · have hc : ((jsRound (x / max va (max pi ka) * 100 * 100) : ℚ)) ≤ 10000 := by
          exact_mod_cast hhigh
        linarith
    exact ⟨key va h1 (le_max_left _ _),
      key pi h2 (le_trans (le_max_left _ _) (le_max_right _ _)),
      key ka h3 (le_trans (le_max_right _ _) (le_max_right _ _))⟩

/-- Shape of a successful `calculatePrakriti` run: the scores of the profile are
the normalized raw scores and its classification comes from
`determineDoshas` on them. -/
theorem calculatePrakriti_ok_elim {userId : String} {answers : List QuizAnswer}
    {p : PrakritiProfile} (h : calculatePrakriti userId answers = .ok p) :
    ∃ rawScores, calculateRawScores answers = .ok rawScores ∧
      p.scores = normalizeScores rawScores ∧
      p.dominant = (determineDoshas (normalizeScores rawScores)).dominant ∧
      p.secondary = (determineDoshas (normalizeScores rawScores)).secondary := by
  by_cases h1 : userId = "" ∨ jsStringTrim userId = ""
  · rw [calculatePrakriti, if_pos h1] at h
    exact absurd h (by simp)
  · by_cases h2 : answers.length = 0
    · rw [calculatePrakriti, if_neg h1, if_pos h2] at h
      exact absurd h (by simp)
    · cases hr : calculateRawScores answers with
      | error e =>
        rw [calculatePrakriti, if_neg h1, if_neg h2, hr] at h
        exact absurd h (by simp)
      | ok raw =>
        rw [calculatePrakriti, if_neg h1, if_neg h2, hr] at h
        have hp := Except.ok.inj h
        exact ⟨raw, rfl, by rw [← hp], by rw [← hp], by rw [← hp]⟩

/-- Concrete run of the scoring pipeline on the sample quiz. -/
theorem sampleProfile_computed :
    calculatePrakriti "user1" sampleQuizAnswers = Except.ok sampleProfile := by
  have h1 : ¬("user1" = "" ∨ jsStringTrim "user1" = "") := by decide
  have h2 : ¬(sampleQuizAnswers.length = 0) := by decide
  rw [calculatePrakriti, if_neg h1, if_neg h2]
  have hraw : calculateRawScores sampleQuizAnswers = .ok ⟨3, 3, 3⟩ := by
    rw [calculateRawScores, sampleQuizAnswers]
    norm_num [calculateRawScoresLoop]
  rw [hraw]
  dsimp only
  have hnorm : normalizeScores ⟨3, 3, 3⟩ = ⟨100, 100, 100⟩ := by
    rw [normalizeScores]
    norm_num [jsRound]
  rw [hnorm]
  have hdet : determineDoshas ⟨100, 100, 100⟩ = ⟨.balanced, none⟩ := by
    norm_num [determineDoshas, sortByScoreDesc, insertScoreDesc]
  rw [hdet]
  rfl

/-- Claim C3: for every profile returned by `calculatePrakriti`, the
dominant classification is `balanced` exactly when the spread between the
maximal and minimal normalized score is at most 10, and a balanced profile
has no secondary dosha. -/
theorem calculatePrakriti_balanced_iff (userId : String) (answers : List QuizAnswer)
    (p : PrakritiProfile) (h : calculatePrakriti userId answers = .ok p) :
    (p.dominant = DoshaType.balanced ↔
      max p.scores.vata (max p.scores.pitta p.scores.kapha) -
        min p.scores.vata (min p.scores.pitta p.scores.kapha) ≤ 10) ∧
    (p.dominant = DoshaType.balanced → p.secondary = none) := by
  obtain ⟨raw, _, hscores, hdom, hsec⟩ := calculatePrakriti_ok_elim h
  rw [hscores, hdom, hsec]
  exact determineDoshas_spec (normalizeScores raw)

/-- Witness for C3 at a concrete quiz: the sample profile is balanced and
its score spread is 0. -/
theorem calculatePrakriti_balanced_iff_witness :
    (sampleProfile.dominant = DoshaType.balanced ↔
      max sampleProfile.scores.vata (max sampleProfile.scores.pitta sampleProfile.scores.kapha) -
        min sampleProfile.scores.vata (min sampleProfile.scores.pitta sampleProfile.scores.kapha) ≤ 10) ∧
    (sampleProfile.dominant = DoshaType.balanced → sampleProfile.secondary = none) :=
  calculatePrakriti_balanced_iff "user1" sampleQuizAnswers sampleProfile sampleProfile_computed

/-- Claim C5: under the documented preconditions (non-empty subject id and
answer list, answer values in `[1,5]`, nonnegative dosha weights), every
score of a profile returned by `calculatePrakriti` lies in `[0,100]`. -/
theorem calculatePrakriti_scores_bounded (userId : String) (answers : List QuizAnswer)
    (p : PrakritiProfile) (_huid : userId ≠ "") (_hans : answers ≠ [])
    (hvals : ∀ a ∈ answers, (1 ≤ a.answer ∧ a.answer ≤ 5) ∧
      0 ≤ a.doshaWeights.vata ∧ 0 ≤ a.doshaWeights.pitta ∧ 0 ≤ a.doshaWeights.kapha)
    (h : calculatePrakriti userId answers = .ok p) :
    (0 ≤ p.scores.vata ∧ p.scores.vata ≤ 100) ∧
    (0 ≤ p.scores.pitta ∧ p.scores.pitta ≤ 100) ∧
    (0 ≤ p.scores.kapha ∧ p.scores.kapha ≤ 100) := by
  obtain ⟨raw, hraw, hscores, _, _⟩ := calculatePrakriti_ok_elim h
  rw [calculateRawScores] at hraw
  have hnn := calculateRawScoresLoop_nonneg answers ⟨0, 0, 0⟩ raw
    (fun a ha => ⟨le_trans zero_le_one (hvals a ha).1.1, (hvals a ha).2⟩)
    le_rfl le_rfl le_rfl hraw
  rw [hscores]
  exact normalizeScores_bounds raw hnn.1 hnn.2.1 hnn.2.2

/-- Witness for C5 at a concrete quiz with all preconditions satisfied. -/
theorem calculatePrakriti_scores_bounded_witness :
    (0 ≤ sampleProfile.scores.vata ∧ sampleProfile.scores.vata ≤ 100) ∧
    (0 ≤ sampleProfile.scores.pitta ∧ sampleProfile.scores.pitta ≤ 100) ∧
    (0 ≤ sampleProfile.scores.kapha ∧ sampleProfile.scores.kapha ≤ 100) :=
  calculatePrakriti_scores_bounded "user1" sampleQuizAnswers sampleProfile
    (by decide) (by decide) (by decide) sampleProfile_computed

/-- Counterexample to claim C7 as stated: a whitespace-only subject id is
not the empty string, yet `calculatePrakriti` rejects it (the source guard
also tests `userId.trim() === ""`). -/
theorem calculatePrakriti_claim_counterexample :
    (" " : String) ≠ "" ∧
    calculatePrakriti " " [⟨1, 3, ⟨1, 1, 1⟩⟩] = .error "userId is required" := by
  constructor
  · decide
  · rw [calculatePrakriti, if_pos (Or.inr (by decide))]

/-- Claim C7 (amended): `calculatePrakriti` fails exactly when the subject
id is empty or all-whitespace, or the answer list is empty, or some answer
value lies outside `[1,5]`; on any other input it returns a profile. -/
theorem calculatePrakriti_error_iff (userId : String) (answers : List QuizAnswer) :
    isError (calculatePrakriti userId answers) = true ↔
      (jsStringTrim userId = "" ∨ answers = [] ∨
        ∃ a ∈ answers, a.answer < 1 ∨ 5 < a.answer) := by
  by_cases h1 : userId = "" ∨ jsStringTrim userId = ""
  · rw [calculatePrakriti, if_pos h1]
    have htrim : jsStringTrim userId = "" := by
      rcases h1 with h | h
      · rw [h]
        rfl
      · exact h
    simp [isError, htrim]
  · rw [calculatePrakriti, if_neg h1]
    have htrim : ¬jsStringTrim userId = "" := fun hc => h1 (Or.inr hc)
    by_cases h2 : answers.length = 0
    · rw [if_pos h2]
      have hnil : answers = [] := List.length_eq_zero.mp h2
      simp [isError, hnil]
    · rw [if_neg h2]
      have hnnil : ¬answers = [] := fun hc => h2 (by rw [hc]; rfl)
      cases hr : calculateRawScores answers with
      | error e =>
        have hex : ∃ a ∈ answers, a.answer < 1 ∨ 5 < a.answer := by
          refine (calculateRawScoresLoop_error_iff answers ⟨0, 0, 0⟩).mp ?_
          rw [← calculateRawScores, hr]
          rfl
        simp [isError, htrim, hnnil, hex]
      | ok raw =>
        have hnoex : ¬∃ a ∈ answers, a.answer < 1 ∨ 5 < a.answer := by
          intro hex
          have := (calculateRawScoresLoop_error_iff answers ⟨0, 0, 0⟩).mpr hex
          rw [← calculateRawScores, hr] at this
          exact absurd this (by simp [isError])
        simp [isError, htrim, hnnil, hnoex]

/-- Witness for the amended C7: an answer value of 7 makes the computation
fail. -/
theorem calculatePrakriti_error_iff_witness :
    isError (calculatePrakriti "u" [⟨1, 7, ⟨1, 1, 1⟩⟩]) = true :=
  (calculatePrakriti_error_iff "u" [⟨1, 7, ⟨1, 1, 1⟩⟩]).mpr
    (Or.inr (Or.inr ⟨⟨1, 7, ⟨1, 1, 1⟩⟩, List.mem_singleton_self _, Or.inr (by norm_num)⟩))

/-- A character list accepted by `headNotWs` is a cons with non-whitespace
head. -/
theorem headNotWs_exists {l : List Char} (h : headNotWs l = true) :
    ∃ c t, l = c :: t ∧ isJsWhitespace c = false := by
  cases l with
  | nil => exact absurd h (by simp [headNotWs])
  | cons c t =>
    refine ⟨c, t, rfl, ?_⟩
    simpa [headNotWs] using h

/-- Every emergency keyword, lower-cased, is non-empty and neither starts
nor ends with whitespace. -/
theorem emergencyKeywords_ok : ∀ kw ∈ EMERGENCY_KEYWORDS,
    headNotWs (toLowerList kw.data) = true ∧
    headNotWs ((toLowerList kw.data).reverse) = true := by
  decide

/-- The emergency keyword table has no duplicate entries. -/
theorem emergencyKeywords_nodup : EMERGENCY_KEYWORDS.Nodup := by
  decide

/-- A pattern starting with a character the predicate rejects remains an
infix after `dropWhile`. -/
theorem infix_dropWhile (p : Char → Bool) (c : Char) (t : List Char) (hc : p c = false) :
    ∀ l : List Char, (c :: t) <:+: l → (c :: t) <:+: l.dropWhile p := by
  intro l
  induction l with
  | nil =>
    intro h
    rwa [List.dropWhile_nil]
  | cons a l ih =>
    intro h
    rw [List.dropWhile_cons]
    cases hpa : p a with
    | true =>
      simp only [if_true]
      refine ih ?_
      rcases List.infix_cons_iff.mp h with hpre | hinf
      · exfalso
        have hca : c = a := (List.cons_prefix_cons.mp hpre).1
        rw [← hca, hc] at hpa
        exact Bool.false_ne_true hpa
      · exact hinf
    | false =>
      simp only [Bool.false_eq_true, if_false]
      exact h

/-- For a pattern with non-whitespace first and last character, occurring
inside the trimmed text is the same as occurring inside the raw text. -/
theorem infix_jsTrim_iff (kw l : List Char)
    (hh : ∃ c t, kw = c :: t ∧ isJsWhitespace c = false)
    (hl : ∃ c t, kw.reverse = c :: t ∧ isJsWhitespace c = false) :
    kw <:+: jsTrim l ↔ kw <:+: l := by
  constructor
  · intro h
    have s3 : jsTrim l <+: l.dropWhile isJsWhitespace := by
      have s2 := List.reverse_prefix.mpr
        (List.dropWhile_suffix (l := (l.dropWhile isJsWhitespace).reverse) isJsWhitespace)
      rwa [List.reverse_reverse] at s2
    exact (h.trans s3.isInfix).trans (List.dropWhile_suffix _).isInfix
  · intro h
    obtain ⟨c, t, hct, hc⟩ := hh
    obtain ⟨c', t', hct', hc'⟩ := hl
    have h2 : kw <:+: l.dropWhile isJsWhitespace := by
      rw [hct] at h ⊢
      exact infix_dropWhile _ _ _ hc _ h
    have h3 : kw.reverse <:+: (l.dropWhile isJsWhitespace).reverse :=
      List.reverse_infix.mpr h2
    have h4 : kw.reverse <:+: (l.dropWhile isJsWhitespace).reverse.dropWhile isJsWhitespace := by
      rw [hct'] at h3 ⊢
      exact infix_dropWhile _ _ _ hc' _ h3
    have h5 := List.reverse_infix.mpr h4
    rwa [List.reverse_reverse] at h5

/-- For a table keyword, the match condition of the code (lower-cased keyword
inside the trimmed lower-cased input) coincides with the specification
notion (case-insensitive substring of the raw input). -/
theorem keywordMatch_equiv (s kw : String) (hkw : kw ∈ EMERGENCY_KEYWORDS) :
    (decide (toLowerList kw.data <:+: jsTrim (toLowerList s.data)) = true) ↔
      keywordMatchesInput s kw := by
  rw [decide_eq_true_eq]
  have hfacts := emergencyKeywords_ok kw hkw
  exact infix_jsTrim_iff _ _ (headNotWs_exists hfacts.1) (headNotWs_exists hfacts.2)

/-- Reduction of `checkEmergencyKeywords` on a non-empty string input. -/
theorem checkEmergencyKeywords_str (s : String) (language : Language) (hs : ¬s = "") :
    checkEmergencyKeywords (.str s) language =
      if (EMERGENCY_KEYWORDS.filter
          (fun keyword => decide (toLowerList keyword.data <:+: jsTrim (toLowerList s.data)))).length > 0 then
        ⟨true, some (EMERGENCY_RESPONSES language),
          some (EMERGENCY_KEYWORDS.filter
            (fun keyword => decide (toLowerList keyword.data <:+: jsTrim (toLowerList s.data))))⟩
      else ⟨false, none, none⟩ := by
  simp only [checkEmergencyKeywords, if_neg hs]

/-- Claim C8: on string input the classifier collects every table entry
occurring case-insensitively in the input — `isEmergency` holds exactly
when some table entry matches, and every matching entry is reported. -/
theorem checkEmergencyKeywords_matches_all (s : String) (language : Language) :
    ((checkEmergencyKeywords (.str s) language).isEmergency = true ↔
      ∃ kw ∈ EMERGENCY_KEYWORDS, keywordMatchesInput s kw) ∧
    (∀ kw ∈ EMERGENCY_KEYWORDS, keywordMatchesInput s kw →
      kw ∈ ((checkEmergencyKeywords (.str s) language).detectedKeywords.getD [])) := by
  by_cases hs : s = ""
  · subst hs
    have hnone : ∀ kw ∈ EMERGENCY_KEYWORDS, ¬keywordMatchesInput "" kw := by
      intro kw hkw hmatch
      obtain ⟨c, t, hct, -⟩ := headNotWs_exists (emergencyKeywords_ok kw hkw).1
      have hnil : toLowerList kw.data = [] := List.infix_nil.mp hmatch
      rw [hct] at hnil
      cases hnil
    have hred : checkEmergencyKeywords (.str "") language = ⟨false, none, none⟩ := rfl
    rw [hred]
    refine ⟨⟨fun hc => absurd hc (by simp), fun hex => ?_⟩, fun kw hkw hmatch => ?_⟩
    · obtain ⟨kw, hkw, hmatch⟩ := hex
      exact absurd hmatch (hnone kw hkw)
    · exact absurd hmatch (hnone kw hkw)
  · rw [checkEmergencyKeywords_str s language hs]
    by_cases hlen : (EMERGENCY_KEYWORDS.filter
        (fun keyword => decide (toLowerList keyword.data <:+: jsTrim (toLowerList s.data)))).length > 0
    · rw [if_pos hlen]
      constructor
      · apply iff_of_true rfl
        obtain ⟨kw, hkwmem⟩ := List.exists_mem_of_length_pos hlen
        have hm := List.mem_filter.mp hkwmem
        exact ⟨kw, hm.1, (keywordMatch_equiv s kw hm.1).mp hm.2⟩
      · intro kw hkw hmatch
        exact List.mem_filter.mpr ⟨hkw, (keywordMatch_equiv s kw hkw).mpr hmatch⟩
    · rw [if_neg hlen]
      have hnomatch : ¬∃ kw ∈ EMERGENCY_KEYWORDS, keywordMatchesInput s kw := by
        rintro ⟨kw, hkw, hmatch⟩
        apply hlen
        have hmem : kw ∈ EMERGENCY_KEYWORDS.filter
            (fun keyword => decide (toLowerList keyword.data <:+: jsTrim (toLowerList s.data))) :=
          List.mem_filter.mpr ⟨hkw, (keywordMatch_equiv s kw hkw).mpr hmatch⟩
        exact List.length_pos.mpr (List.ne_nil_of_mem hmem)
      refine ⟨⟨fun hc => absurd hc (by simp), fun hex => absurd hex hnomatch⟩,
        fun kw hkw hmatch => absurd ⟨kw, hkw, hmatch⟩ hnomatch⟩

/-- Witness for C8: "CHEST PAIN" matches the table entry "chest pain", and
the entry is reported. -/
theorem checkEmergencyKeywords_matches_all_witness :
    "chest pain" ∈ ((checkEmergencyKeywords (.str "CHEST PAIN") Language.en).detectedKeywords.getD []) :=
  (checkEmergencyKeywords_matches_all "CHEST PAIN" Language.en).2 "chest pain"
    (by decide) (by decide)

/-- Claim C10: the reported keyword list is a sublist of the keyword table
(hence in table order and verbatim from the table) and contains each
matched entry exactly once. -/
theorem checkEmergencyKeywords_detected_ordered (s : String) (language : Language)
    (l : List String)
    (hE : (checkEmergencyKeywords (.str s) language).isEmergency = true)
    (hK : (checkEmergencyKeywords (.str s) language).detectedKeywords = some l) :
    l.Sublist EMERGENCY_KEYWORDS ∧ l.Nodup ∧ ∀ kw ∈ l, l.count kw = 1 := by
  by_cases hs : s = ""
  · have hred : checkEmergencyKeywords (.str "") language = ⟨false, none, none⟩ := rfl
    rw [hs, hred] at hE
    exact absurd hE (by simp)
  · rw [checkEmergencyKeywords_str s language hs] at hK
    by_cases hlen : (EMERGENCY_KEYWORDS.filter
        (fun keyword => decide (toLowerList keyword.data <:+: jsTrim (toLowerList s.data)))).length > 0
    · rw [if_pos hlen] at hK
      have hl : l = EMERGENCY_KEYWORDS.filter
          (fun keyword => decide (toLowerList keyword.data <:+: jsTrim (toLowerList s.data))) :=
        (Option.some.inj hK).symm
      subst hl
      have hnd : (EMERGENCY_KEYWORDS.filter
          (fun keyword => decide (toLowerList keyword.data <:+: jsTrim (toLowerList s.data)))).Nodup :=
        List.Nodup.filter _ emergencyKeywords_nodup
      exact ⟨List.filter_sublist _, hnd, fun kw hkw => List.count_eq_one_of_mem hnd hkw⟩
    · rw [if_neg hlen] at hK
      exact absurd hK (by simp)

/-- Witness for C10 at the concrete input "CHEST PAIN", whose detected list
is exactly `["chest pain"]`. -/
theorem checkEmergencyKeywords_detected_ordered_witness :
    (["chest pain"] : List String).Sublist EMERGENCY_KEYWORDS ∧
    (["chest pain"] : List String).Nodup ∧
    ∀ kw ∈ (["chest pain"] : List String), (["chest pain"] : List String).count kw = 1 :=
  checkEmergencyKeywords_detected_ordered "CHEST PAIN" Language.en ["chest pain"]
    (by decide) (by decide)

end AyushDhara
